import Mathlib

/-!
Verification of the KumoCMS lambda document-lifecycle engine.

The development shallowly embeds the Python source:
  * `src/common/common.py` (`extract_file_id`, `create_or_update_record`,
    `retry_with_backoff`),
  * `src/handlers/events/event_processor.py` (`handle_regular_file`,
    `handle_meta_json_file`, `lambda_handler`),
  * `src/handlers/events/restore_event_processor.py` (`handle_restore_file`),
  * `src/handlers/events/dlq_retry_processor.py` (`process_dlq_message`),
  * `src/handlers/api/restore.py`, `src/handlers/api/archive.py`,
    `src/handlers/api/retrieve.py` (the three API `lambda_handler`s).

A DynamoDB item is modelled as a partial map from attribute names to values
(`Item`).  A Python dict literal and a DynamoDB `SET` update expression are
both "last write wins" sequences of key/value assignments (`applyUpdate`).
The record store is viewed per `document_id` (the table's primary key), so
the state visible to the handlers for one document is an `Option Item`.
-/

/-- A DynamoDB attribute value: the handlers store strings and numbers. -/
inductive Val where
  | s (v : String)
  | n (v : Nat)
deriving DecidableEq, Repr

/-- A DynamoDB item / parsed JSON object: a partial map from attribute names
to values. -/
def Item : Type := String → Option Val

/-- Assign one attribute (one `#attr = :val` clause of a `SET` expression,
or one Python dict entry). -/
def setK (it : Item) (k : String) (v : Val) : Item :=
  fun k' => if k' = k then some v else it k'

/-- Apply a sequence of attribute assignments in order; later entries win,
exactly like a Python dict literal with `**` splats and like the
`SET a = :v, b = :w` update expression built in `create_or_update_record`. -/
def applyUpdate (it : Item) (data : List (String × Val)) : Item :=
  data.foldl (fun acc kv => setK acc kv.1 kv.2) it

/-- The empty item. -/
def emptyItem : Item := fun _ => none

/-- A Python dict built from a list of key/value pairs (later keys override). -/
def dictOf (data : List (String × Val)) : Item :=
  applyUpdate emptyItem data

/-- Left-biased choice on optional values. -/
def oget (a b : Option Val) : Option Val :=
  match a with
  | some v => some v
  | none => b

theorem applyUpdate_nil (it : Item) : applyUpdate it [] = it := rfl

theorem applyUpdate_cons (it : Item) (kv : String × Val) (rest : List (String × Val)) :
    applyUpdate it (kv :: rest) = applyUpdate (setK it kv.1 kv.2) rest := rfl

theorem applyUpdate_append (it : Item) (a b : List (String × Val)) :
    applyUpdate it (a ++ b) = applyUpdate (applyUpdate it a) b := by
  simp [applyUpdate, List.foldl_append]

theorem setK_same (it : Item) (k : String) (v : Val) : setK it k v k = some v := by
  simp [setK]

theorem setK_other (it : Item) (k k' : String) (v : Val) (h : k' ≠ k) :
    setK it k v k' = it k' := by
  simp [setK, h]

/-- Keys not mentioned by an update are untouched. -/
theorem applyUpdate_notMem (data : List (String × Val)) (it : Item) (k : String)
    (h : k ∉ data.map Prod.fst) : applyUpdate it data k = it k := by
  induction data generalizing it with
  | nil => rfl
  | cons kv rest ih =>
    simp only [List.map_cons, List.mem_cons] at h
    push_neg at h
    rw [applyUpdate_cons, ih _ h.2, setK_other _ _ _ _ h.1]

/-- The result of an update at a key is the dict value when present, the old
value otherwise. -/
theorem applyUpdate_get (data : List (String × Val)) (it : Item) (k : String) :
    applyUpdate it data k = oget (dictOf data k) (it k) := by
  induction data generalizing it with
  | nil => rfl
  | cons kv rest ih =>
    rw [applyUpdate_cons, ih]
    show oget (dictOf rest k) (setK it kv.1 kv.2 k) =
      oget (applyUpdate (setK emptyItem kv.1 kv.2) rest k) (it k)
    rw [show applyUpdate (setK emptyItem kv.1 kv.2) rest k =
        oget (dictOf rest k) (setK emptyItem kv.1 kv.2 k) from ih _]
    cases hdd : dictOf rest k with
    | some v => rfl
    | none =>
      show setK it kv.1 kv.2 k = oget (setK emptyItem kv.1 kv.2 k) (it k)
      by_cases hk : k = kv.1
      · subst hk; rw [setK_same, setK_same]; rfl
      · rw [setK_other _ _ _ _ hk, setK_other _ _ _ _ hk]; rfl

/-- A key present in a dict has a value. -/
theorem dictOf_isSome (data : List (String × Val)) (k : String)
    (h : k ∈ data.map Prod.fst) : (dictOf data k).isSome := by
  induction data with
  | nil => simp at h
  | cons kv rest ih =>
    by_cases hr : k ∈ rest.map Prod.fst
    · have := ih hr
      rw [show dictOf (kv :: rest) k = oget (dictOf rest k) (setK emptyItem kv.1 kv.2 k) by
        rw [dictOf, applyUpdate_cons, applyUpdate_get]]
      cases hdd : dictOf rest k with
      | some v => rfl
      | none => rw [hdd] at this; simp at this
    · simp only [List.map_cons, List.mem_cons] at h
      rcases h with h | h
      · rw [dictOf, applyUpdate_cons, applyUpdate_notMem _ _ _ hr, h, setK_same]; rfl
      · exact absurd h hr

/-- At a key present in the update, the result is the dict value. -/
theorem applyUpdate_mem (data : List (String × Val)) (it : Item) (k : String)
    (h : k ∈ data.map Prod.fst) : applyUpdate it data k = dictOf data k := by
  rw [applyUpdate_get]
  have := dictOf_isSome data k h
  cases hdd : dictOf data k with
  | some v => rfl
  | none => rw [hdd] at this; simp at this

/-! ## String helpers from `common.py` -/

/-- `s3key.split("/")[-1]`: the characters after the last path separator. -/
def lastComponent (cs : List Char) : List Char :=
  cs.foldl (fun acc ch => if ch = '/' then [] else acc ++ [ch]) []

/-- `pathlib.Path(name).stem`: drop the extension after the last dot,
provided that dot is neither the first nor the last character of the name. -/
def stemChars (cs : List Char) : List Char :=
  match ((List.range cs.length).filter
      (fun i => decide (0 < i) && decide (i + 1 < cs.length) && (cs.getD i ' ' == '.'))).getLast? with
  | some i => cs.take i
  | none => cs

/-- `common.extract_file_id`: filename = key.split("/")[-1]; then Path.stem. -/
def extract_file_id (s3key : String) : String :=
  String.mk (stemChars (lastComponent s3key.data))

/-- `key.split("/")[-1]`, used for `file_name`. -/
def basename (s3key : String) : String :=
  String.mk (lastComponent s3key.data)

/-- Python slice `key[:-n]`. -/
def strDropRight (s : String) (n : Nat) : String :=
  String.mk (s.data.take (s.data.length - n))

example : extract_file_id "docs/abc.pdf" = "abc" := by decide
example : extract_file_id "abc.meta.json" = "abc.meta" := by decide
example : basename "docs/abc.pdf" = "abc.pdf" := by decide
example : strDropRight "docs/abc.meta.json" 10 = "docs/abc" := by decide

/-- Python truthiness of an attribute value, as used by
`if not existing_record.get("file_name")`. -/
def isFalsy : Option Val → Bool
  | none => true
  | some (.s v) => v = ""
  | some (.n v) => v = 0

/-! ## The reconciliation engine (`event_processor.py`)

The context packs the inputs a pair of creation events carries: the content
object's key and the values `s3.get_object` returns for it, the metadata
object's key and its parsed JSON payload, and the wall-clock strings each
handler would obtain from `datetime.now()`. -/

structure Ctx where
  bucket : String
  key : String                     -- the content object key
  content_type : String            -- response["ContentType"]
  size : Nat                       -- response.get("ContentLength", 0)
  etag : String                    -- response["ETag"].strip('"')
  cnow : String                    -- timestamp taken by the content path
  mkey : String                    -- the metadata object key (*.meta.json)
  mnow : String                    -- timestamp taken by the metadata path
  payload : List (String × Val)    -- the parsed meta.json object

/-- `document_id` derived by `handle_regular_file`. -/
def contentDocId (c : Ctx) : String := extract_file_id c.key

/-- `document_id` derived by `handle_meta_json_file`:
`extract_file_id(key[:-10])`. -/
def metaDocId (c : Ctx) : String := extract_file_id (strDropRight c.mkey 10)

/-- The `update_data` dict of `handle_regular_file` (the `.meta.json`-first
branch); `file_name` is appended only when the existing record has no
truthy `file_name`. -/
def contentUpdateData (c : Ctx) (withName : Bool) : List (String × Val) :=
  [("s3key", .s c.key), ("s3bucket", .s c.bucket), ("content_type", .s c.content_type),
   ("size", .n c.size), ("etag", .s c.etag), ("updateddatetime", .s c.cnow),
   ("has_file", .s "yes")] ++
  (if withName then [("file_name", Val.s (basename c.key))] else [])

/-- The `record_data` dict of `handle_regular_file`'s create branch. -/
def contentCreateData (c : Ctx) : List (String × Val) :=
  [("document_id", .s (contentDocId c)), ("s3key", .s c.key),
   ("file_name", .s (basename c.key)), ("s3bucket", .s c.bucket),
   ("content_type", .s c.content_type), ("size", .n c.size), ("etag", .s c.etag),
   ("updateddatetime", .s c.cnow), ("has_file", .s "yes")]

/-- The item written by the conditional `put_item`
(`{"document_id": document_id, **record_data}`). -/
def contentPutItem (c : Ctx) : Item :=
  dictOf (("document_id", Val.s (contentDocId c)) :: contentCreateData c)

/-- The `update_data` dict of `handle_meta_json_file`
(`{"meta_s3key": ..., "meta_json_timestamp": ..., "has_metadata": "yes",
**meta_data}`): the payload is splatted last and overrides. -/
def metaUpdateData (c : Ctx) : List (String × Val) :=
  [("meta_s3key", .s c.mkey), ("meta_json_timestamp", .s c.mnow),
   ("has_metadata", .s "yes")] ++ c.payload

/-- The `record_data` dict of `handle_meta_json_file`'s create branch. -/
def metaCreateData (c : Ctx) : List (String × Val) :=
  ("document_id", Val.s (metaDocId c)) :: metaUpdateData c

/-- The item written by the metadata path's conditional `put_item`. -/
def metaPutItem (c : Ctx) : Item :=
  dictOf (("document_id", Val.s (metaDocId c)) :: metaCreateData c)

/-- `create_or_update_record(..., is_update=True)`: a DynamoDB
`update_item` with a `SET` expression over `record_data` — an upsert: when
no item exists it creates one holding the primary key and the assigned
attributes. -/
def dbUpdate (docId : String) (st : Option Item) (data : List (String × Val)) : Option Item :=
  some (applyUpdate (st.getD (dictOf [("document_id", Val.s docId)])) data)

/-- Attribute names written by the engine itself (as opposed to keys coming
from a `meta.json` payload). -/
def sysKeys : List String :=
  ["document_id", "s3key", "s3bucket", "content_type", "size", "etag",
   "updateddatetime", "has_file", "file_name", "meta_s3key",
   "meta_json_timestamp", "has_metadata"]

/-- The metadata payload does not shadow any engine-owned attribute. -/
def PayloadDisjoint (c : Ctx) : Prop :=
  ∀ kv ∈ c.payload, kv.1 ∉ sysKeys

instance (c : Ctx) : Decidable (PayloadDisjoint c) := by
  unfold PayloadDisjoint; infer_instance

theorem payload_not_mem {c : Ctx} (hp : PayloadDisjoint c) {k : String}
    (hk : k ∈ sysKeys) : k ∉ c.payload.map Prod.fst := by
  intro hmem
  rcases List.mem_map.mp hmem with ⟨kv, hkv, hfst⟩
  exact hp kv hkv (hfst ▸ hk)

/-! ## Sequential runs of the two creation handlers

When a handler runs with no concurrent writer, the store it read is the
store its write hits: the conditional `put_item` of the create branch
succeeds exactly when the read found nothing, so the race branch cannot
trigger.  These functions are `handle_regular_file` / `handle_meta_json_file`
specialised to that sequential case. -/

/-- `handle_regular_file(bucket, key)` run alone against store `st`. -/
def handle_regular_file (c : Ctx) (st : Option Item) : Option Item :=
  match st with
  | some existing =>
      dbUpdate (contentDocId c) st (contentUpdateData c (isFalsy (existing "file_name")))
  | none => some (contentPutItem c)

/-- `handle_meta_json_file(bucket, key)` run alone against store `st`. -/
def handle_meta_json_file (c : Ctx) (st : Option Item) : Option Item :=
  match st with
  | some _ => dbUpdate (metaDocId c) st (metaUpdateData c)
  | none => some (metaPutItem c)

/-! ## The interleaving semantics of the two creation paths

Each handler performs a sequence of atomic record-store operations:
a `get_item` read, then either an `update_item` (record already present)
or a conditional `put_item`; when the conditional put loses the race it
re-reads and updates, wrapped in `retry_with_backoff` with 3 attempts.
Program counters: -/

inductive CPc where
  | start                              -- about to run get_existing_record
  | upd (withName : Bool)              -- read found a record; about to update_item
  | put                                -- read found none; about to conditional put_item
  | retryRead (attempt : Nat)          -- put lost the race; retry attempt re-reads
  | retryUpd (attempt : Nat) (withName : Bool)  -- retry re-read found a record
  | failed                             -- all retry attempts raised
  | done
deriving DecidableEq, Repr

inductive MPc where
  | start
  | upd
  | put
  | retryRead (attempt : Nat)
  | retryUpd (attempt : Nat)
  | failed
  | done
deriving DecidableEq, Repr

/-- The shared record-store row for the document, a count of successful
conditional creates, and the two handlers' program counters. -/
structure Sys where
  store : Option Item
  creates : Nat
  tc : CPc
  tm : MPc

/-- One atomic record-store operation by either handler.  Guards mirror the
code: the conditional put succeeds only on an absent record
(`attribute_not_exists(document_id)`), `update_item` is an upsert, reads
never fail, and the retry loop re-reads up to `max_attempts = 3` times. -/
inductive Step (c : Ctx) : Sys → Sys → Prop where
  | cReadFound (r : Item) (cr : Nat) (tm : MPc) :
      Step c ⟨some r, cr, .start, tm⟩ ⟨some r, cr, .upd (isFalsy (r "file_name")), tm⟩
  | cReadNone (cr : Nat) (tm : MPc) :
      Step c ⟨none, cr, .start, tm⟩ ⟨none, cr, .put, tm⟩
  | cUpdWrite (st : Option Item) (cr : Nat) (tm : MPc) (w : Bool) :
      Step c ⟨st, cr, .upd w, tm⟩
        ⟨dbUpdate (contentDocId c) st (contentUpdateData c w), cr, .done, tm⟩
  | cPutOk (cr : Nat) (tm : MPc) :
      Step c ⟨none, cr, .put, tm⟩ ⟨some (contentPutItem c), cr + 1, .done, tm⟩
  | cPutFail (r : Item) (cr : Nat) (tm : MPc) :
      Step c ⟨some r, cr, .put, tm⟩ ⟨some r, cr, .retryRead 0, tm⟩
  | cRetryFound (r : Item) (cr : Nat) (tm : MPc) (k : Nat) :
      Step c ⟨some r, cr, .retryRead k, tm⟩
        ⟨some r, cr, .retryUpd k (isFalsy (r "file_name")), tm⟩
  | cRetryNone (cr : Nat) (tm : MPc) (k : Nat) (hk : k + 1 < 3) :
      Step c ⟨none, cr, .retryRead k, tm⟩ ⟨none, cr, .retryRead (k + 1), tm⟩
  | cRetryExhaust (cr : Nat) (tm : MPc) (k : Nat) (hk : ¬ k + 1 < 3) :
      Step c ⟨none, cr, .retryRead k, tm⟩ ⟨none, cr, .failed, tm⟩
  | cRetryWrite (st : Option Item) (cr : Nat) (tm : MPc) (k : Nat) (w : Bool) :
      Step c ⟨st, cr, .retryUpd k w, tm⟩
        ⟨dbUpdate (contentDocId c) st (contentUpdateData c w), cr, .done, tm⟩
  | mReadFound (r : Item) (cr : Nat) (tc : CPc) :
      Step c ⟨some r, cr, tc, .start⟩ ⟨some r, cr, tc, .upd⟩
  | mReadNone (cr : Nat) (tc : CPc) :
      Step c ⟨none, cr, tc, .start⟩ ⟨none, cr, tc, .put⟩
  | mUpdWrite (st : Option Item) (cr : Nat) (tc : CPc) :
      Step c ⟨st, cr, tc, .upd⟩
        ⟨dbUpdate (metaDocId c) st (metaUpdateData c), cr, tc, .done⟩
  | mPutOk (cr : Nat) (tc : CPc) :
      Step c ⟨none, cr, tc, .put⟩ ⟨some (metaPutItem c), cr + 1, tc, .done⟩
  | mPutFail (r : Item) (cr : Nat) (tc : CPc) :
      Step c ⟨some r, cr, tc, .put⟩ ⟨some r, cr, tc, .retryRead 0⟩
  | mRetryFound (r : Item) (cr : Nat) (tc : CPc) (k : Nat) :
      Step c ⟨some r, cr, tc, .retryRead k⟩ ⟨some r, cr, tc, .retryUpd k⟩
  | mRetryNone (cr : Nat) (tc : CPc) (k : Nat) (hk : k + 1 < 3) :
      Step c ⟨none, cr, tc, .retryRead k⟩ ⟨none, cr, tc, .retryRead (k + 1)⟩
  | mRetryExhaust (cr : Nat) (tc : CPc) (k : Nat) (hk : ¬ k + 1 < 3) :
      Step c ⟨none, cr, tc, .retryRead k⟩ ⟨none, cr, tc, .failed⟩
  | mRetryWrite (st : Option Item) (cr : Nat) (tc : CPc) (k : Nat) :
      Step c ⟨st, cr, tc, .retryUpd k⟩
        ⟨dbUpdate (metaDocId c) st (metaUpdateData c), cr, tc, .done⟩

/-- Both events just arrived: no record yet, neither handler started. -/
def initSys : Sys := ⟨none, 0, .start, .start⟩

/-- The states an interleaved execution of the two handlers can reach. -/
def Reachable (c : Ctx) (s : Sys) : Prop :=
  Relation.ReflTransGen (Step c) initSys s

/-! ## Invariants of the interleaved execution -/

/-- The content path's fields, as `handle_regular_file` writes them. -/
def CFields (c : Ctx) (it : Item) : Prop :=
  it "s3key" = some (.s c.key) ∧ it "s3bucket" = some (.s c.bucket) ∧
  it "content_type" = some (.s c.content_type) ∧ it "size" = some (.n c.size) ∧
  it "etag" = some (.s c.etag) ∧ it "has_file" = some (.s "yes") ∧
  it "file_name" = some (.s (basename c.key))

/-- The metadata path's fields, as `handle_meta_json_file` writes them. -/
def MFields (c : Ctx) (it : Item) : Prop :=
  it "meta_s3key" = some (.s c.mkey) ∧ it "has_metadata" = some (.s "yes") ∧
  ∀ k ∈ c.payload.map Prod.fst, it k = dictOf c.payload k

/-- The attribute names the content path assigns. -/
def contentKeys : List String :=
  ["s3key", "s3bucket", "content_type", "size", "etag", "updateddatetime",
   "has_file", "file_name"]

theorem contentKeys_sub_sys : ∀ k ∈ contentKeys, k ∈ sysKeys := by
  intro k hk
  fin_cases hk <;> decide

theorem contentUpdateData_keys (c : Ctx) (w : Bool) :
    ∀ k ∈ (contentUpdateData c w).map Prod.fst, k ∈ contentKeys := by
  cases w <;> intro k hk <;>
    simp only [contentUpdateData, Bool.false_eq_true, if_false, if_true,
      List.append_nil, List.map_append, List.map_cons, List.map_nil,
      List.mem_append, List.mem_cons, List.not_mem_nil, or_false] at hk <;>
    simp only [contentKeys, List.mem_cons, List.not_mem_nil, or_false] <;>
    tauto

/-- A content-path update leaves keys outside `contentKeys` unchanged. -/
theorem contentUpdate_skips (c : Ctx) (it : Item) (w : Bool) (k : String)
    (hk : k ∉ contentKeys) : applyUpdate it (contentUpdateData c w) k = it k :=
  applyUpdate_notMem _ _ _ (fun hmem => hk (contentUpdateData_keys c w k hmem))

/-- A metadata-path update leaves engine-owned keys other than its own three
unchanged (the payload cannot shadow them when it is disjoint). -/
theorem metaUpdate_skips (c : Ctx) (hp : PayloadDisjoint c) (it : Item) (k : String)
    (hk : k ∈ sysKeys)
    (hfix : k ∉ (["meta_s3key", "meta_json_timestamp", "has_metadata"] : List String)) :
    applyUpdate it (metaUpdateData c) k = it k := by
  have hpay := payload_not_mem hp hk
  rw [show metaUpdateData c =
      [("meta_s3key", Val.s c.mkey), ("meta_json_timestamp", Val.s c.mnow),
       ("has_metadata", Val.s "yes")] ++ c.payload from rfl,
    applyUpdate_append, applyUpdate_notMem _ _ _ hpay, applyUpdate_notMem]
  simpa using hfix

theorem cfields_applyUpdate (c : Ctx) (base : Item) :
    CFields c (applyUpdate base (contentUpdateData c true)) :=
  ⟨rfl, rfl, rfl, rfl, rfl, rfl, rfl⟩

theorem cfields_putItem (c : Ctx) : CFields c (contentPutItem c) :=
  ⟨rfl, rfl, rfl, rfl, rfl, rfl, rfl⟩

theorem cfields_preserved_meta (c : Ctx) (hp : PayloadDisjoint c) (it : Item)
    (h : CFields c it) : CFields c (applyUpdate it (metaUpdateData c)) := by
  obtain ⟨h1, h2, h3, h4, h5, h6, h7⟩ := h
  refine ⟨?_, ?_, ?_, ?_, ?_, ?_, ?_⟩ <;>
    rw [metaUpdate_skips c hp it _ (by decide) (by decide)] <;> assumption

theorem mfields_applyUpdate (c : Ctx) (hp : PayloadDisjoint c) (base : Item) :
    MFields c (applyUpdate base (metaUpdateData c)) := by
  have hsplit : metaUpdateData c =
      [("meta_s3key", Val.s c.mkey), ("meta_json_timestamp", Val.s c.mnow),
       ("has_metadata", Val.s "yes")] ++ c.payload := rfl
  refine ⟨?_, ?_, ?_⟩
  · rw [hsplit, applyUpdate_append,
      applyUpdate_notMem _ _ _ (payload_not_mem hp (by decide))]
    rfl
  · rw [hsplit, applyUpdate_append,
      applyUpdate_notMem _ _ _ (payload_not_mem hp (by decide))]
    rfl
  · intro k hk
    rw [hsplit, applyUpdate_append, applyUpdate_mem _ _ _ hk]

theorem mfields_putItem (c : Ctx) (hp : PayloadDisjoint c) : MFields c (metaPutItem c) := by
  have hshape : metaPutItem c = applyUpdate
      (dictOf [("document_id", Val.s (metaDocId c)), ("document_id", Val.s (metaDocId c))])
      (metaUpdateData c) := by
    rw [metaPutItem, metaCreateData, dictOf, applyUpdate_cons, applyUpdate_cons]; rfl
  rw [hshape]
  exact mfields_applyUpdate c hp _

theorem mfields_preserved_content (c : Ctx) (hp : PayloadDisjoint c) (it : Item) (w : Bool)
    (h : MFields c it) : MFields c (applyUpdate it (contentUpdateData c w)) := by
  obtain ⟨h1, h2, h3⟩ := h
  refine ⟨?_, ?_, ?_⟩
  · rw [contentUpdate_skips c it w _ (by decide)]; exact h1
  · rw [contentUpdate_skips c it w _ (by decide)]; exact h2
  · intro k hk
    have hnot : k ∉ contentKeys := by
      rcases List.mem_map.mp hk with ⟨kv, hkv, hfst⟩
      intro hc
      exact hp kv hkv (hfst ▸ contentKeys_sub_sys k hc)
    rw [contentUpdate_skips c it w _ hnot]
    exact h3 k hk

/-- Neither path has set `file_name` in an item written by the metadata
path alone. -/
theorem metaUpdate_fileName (c : Ctx) (hp : PayloadDisjoint c) (it : Item) :
    applyUpdate it (metaUpdateData c) "file_name" = it "file_name" :=
  metaUpdate_skips c hp it _ (by decide) (by decide)

theorem metaPutItem_fileName (c : Ctx) (hp : PayloadDisjoint c) :
    metaPutItem c "file_name" = none := by
  have hshape : metaPutItem c = applyUpdate
      (dictOf [("document_id", Val.s (metaDocId c)), ("document_id", Val.s (metaDocId c))])
      (metaUpdateData c) := by
    rw [metaPutItem, metaCreateData, dictOf, applyUpdate_cons, applyUpdate_cons]; rfl
  rw [hshape, metaUpdate_fileName c hp]
  rfl

/-- The inductive invariant of the interleaved execution: the conditional
create is the only way the record comes into existence (`createsEq`), each
handler's update phases run against an existing record, a finished path's
fields are present, retries never exhaust, and nobody has set `file_name`
before the content path's final write. -/
structure EngineInv (c : Ctx) (s : Sys) : Prop where
  createsEq : s.creates = if s.store.isSome then 1 else 0
  cUpdSome : ∀ w, s.tc = .upd w → s.store.isSome ∧ w = true
  cRRSome : ∀ k, s.tc = .retryRead k → s.store.isSome
  cRUSome : ∀ k w, s.tc = .retryUpd k w → s.store.isSome ∧ w = true
  cDoneFields : s.tc = .done → ∃ it, s.store = some it ∧ CFields c it
  cNotFailed : s.tc ≠ .failed
  mUpdSome : s.tm = .upd → s.store.isSome
  mRRSome : ∀ k, s.tm = .retryRead k → s.store.isSome
  mRUSome : ∀ k, s.tm = .retryUpd k → s.store.isSome
  mDoneFields : s.tm = .done → ∃ it, s.store = some it ∧ MFields c it
  mNotFailed : s.tm ≠ .failed
  fileNameNone : ∀ it, s.store = some it → s.tc ≠ .done → it "file_name" = none

theorem inv_init (c : Ctx) : EngineInv c initSys := by
  refine ⟨rfl, ?_, ?_, ?_, ?_, ?_, ?_, ?_, ?_, ?_, ?_, ?_⟩ <;>
    intros <;> simp_all [initSys]

theorem inv_step {c : Ctx} (hp : PayloadDisjoint c) {s s' : Sys}
    (hstep : Step c s s') (h : EngineInv c s) : EngineInv c s' := by
  cases hstep with
  | cReadFound r cr tm =>
      have hfn : r "file_name" = none := h.fileNameNone r rfl (by simp)
      refine ⟨h.createsEq, ?_, ?_, ?_, ?_, ?_, h.mUpdSome, h.mRRSome, h.mRUSome,
        h.mDoneFields, h.mNotFailed, ?_⟩ <;> intros <;> simp_all [isFalsy]
  | cReadNone cr tm =>
      refine ⟨h.createsEq, ?_, ?_, ?_, ?_, ?_, h.mUpdSome, h.mRRSome, h.mRUSome,
        h.mDoneFields, h.mNotFailed, ?_⟩ <;> intros <;> simp_all
  | cUpdWrite st cr tm w =>
      obtain ⟨hsome, hw⟩ := h.cUpdSome w rfl
      obtain ⟨it, hit⟩ := Option.isSome_iff_exists.mp hsome
      subst hw hit
      refine ⟨by simpa [dbUpdate] using h.createsEq, ?_, ?_, ?_, ?_, ?_, ?_, ?_, ?_, ?_,
        h.mNotFailed, ?_⟩
      · intro w' hw'; simp at hw'
      · intro k hk; simp at hk
      · intro k w' hk; simp at hk
      · intro _
        exact ⟨_, rfl, cfields_applyUpdate c it⟩
      · simp
      · intro _; simp [dbUpdate]
      · intro k _; simp [dbUpdate]
      · intro k _; simp [dbUpdate]
      · intro hm
        obtain ⟨it2, hit2, hmf⟩ := h.mDoneFields hm
        obtain rfl : it = it2 := by injection hit2
        exact ⟨_, rfl, mfields_preserved_content c hp it true hmf⟩
      · intro it' _ hc; exact absurd rfl hc
  | cPutOk cr tm =>
      refine ⟨?_, ?_, ?_, ?_, ?_, ?_, ?_, ?_, ?_, ?_, h.mNotFailed, ?_⟩
      · have := h.createsEq; simp_all [contentPutItem]
      · intro w' hw'; simp at hw'
      · intro k hk; simp at hk
      · intro k w' hk; simp at hk
      · intro _; exact ⟨_, rfl, cfields_putItem c⟩
      · simp
      · intro _; simp
      · intro k _; simp
      · intro k _; simp
      · intro hm
        obtain ⟨it2, hit2, _⟩ := h.mDoneFields hm
        simp at hit2
      · intro it' _ hc; exact absurd rfl hc
  | cPutFail r cr tm =>
      refine ⟨h.createsEq, ?_, ?_, ?_, ?_, ?_, h.mUpdSome, h.mRRSome, h.mRUSome,
        h.mDoneFields, h.mNotFailed, ?_⟩ <;> intros <;> simp_all
      exact h.fileNameNone _ rfl (by simp)
  | cRetryFound r cr tm k =>
      have hfn : r "file_name" = none := h.fileNameNone r rfl (by simp)
      refine ⟨h.createsEq, ?_, ?_, ?_, ?_, ?_, h.mUpdSome, h.mRRSome, h.mRUSome,
        h.mDoneFields, h.mNotFailed, ?_⟩ <;> intros <;> simp_all [isFalsy]
  | cRetryNone cr tm k hk =>
      exact absurd (h.cRRSome k rfl) (by simp)
  | cRetryExhaust cr tm k hk =>
      exact absurd (h.cRRSome k rfl) (by simp)
  | cRetryWrite st cr tm k w =>
      obtain ⟨hsome, hw⟩ := h.cRUSome k w rfl
      obtain ⟨it, hit⟩ := Option.isSome_iff_exists.mp hsome
      subst hw hit
      refine ⟨by simpa [dbUpdate] using h.createsEq, ?_, ?_, ?_, ?_, ?_, ?_, ?_, ?_, ?_,
        h.mNotFailed, ?_⟩
      · intro w' hw'; simp at hw'
      · intro k' hk'; simp at hk'
      · intro k' w' hk'; simp at hk'
      · intro _
        exact ⟨_, rfl, cfields_applyUpdate c it⟩
      · simp
      · intro _; simp [dbUpdate]
      · intro k' _; simp [dbUpdate]
      · intro k' _; simp [dbUpdate]
      · intro hm
        obtain ⟨it2, hit2, hmf⟩ := h.mDoneFields hm
        obtain rfl : it = it2 := by injection hit2
        exact ⟨_, rfl, mfields_preserved_content c hp it true hmf⟩
      · intro it' _ hc; exact absurd rfl hc
  | mReadFound r cr tc =>
      refine ⟨h.createsEq, h.cUpdSome, h.cRRSome, h.cRUSome, h.cDoneFields,
        h.cNotFailed, ?_, ?_, ?_, ?_, ?_, h.fileNameNone⟩ <;> intros <;> simp_all
  | mReadNone cr tc =>
      refine ⟨h.createsEq, h.cUpdSome, h.cRRSome, h.cRUSome, h.cDoneFields,
        h.cNotFailed, ?_, ?_, ?_, ?_, ?_, h.fileNameNone⟩ <;> intros <;> simp_all
  | mUpdWrite st cr tc =>
      have hsome := h.mUpdSome rfl
      obtain ⟨it, hit⟩ := Option.isSome_iff_exists.mp hsome
      subst hit
      refine ⟨by simpa [dbUpdate] using h.createsEq, ?_, ?_, ?_, ?_, h.cNotFailed,
        ?_, ?_, ?_, ?_, ?_, ?_⟩
      · intro w hw
        exact ⟨by simp [dbUpdate], (h.cUpdSome w hw).2⟩
      · intro k hk; simp [dbUpdate]
      · intro k w hk
        exact ⟨by simp [dbUpdate], (h.cRUSome k w hk).2⟩
      · intro hc
        obtain ⟨it2, hit2, hcf⟩ := h.cDoneFields hc
        obtain rfl : it = it2 := by injection hit2
        exact ⟨_, rfl, cfields_preserved_meta c hp it hcf⟩
      · intro hm; simp at hm
      · intro k hk; simp at hk
      · intro k hk; simp at hk
      · intro _; exact ⟨_, rfl, mfields_applyUpdate c hp it⟩
      · simp
      · intro it' hit' hc
        obtain rfl : applyUpdate it (metaUpdateData c) = it' := by
          simpa [dbUpdate] using hit'
        rw [metaUpdate_fileName c hp]
        exact h.fileNameNone it rfl hc
  | mPutOk cr tc =>
      refine ⟨?_, ?_, ?_, ?_, ?_, h.cNotFailed, ?_, ?_, ?_, ?_, ?_, ?_⟩
      · have := h.createsEq; simp_all [metaPutItem]
      · intro w hw
        exact absurd (h.cUpdSome w hw).1 (by simp)
      · intro k hk
        exact absurd (h.cRRSome k hk) (by simp)
      · intro k w hk
        exact absurd (h.cRUSome k w hk).1 (by simp)
      · intro hc
        obtain ⟨it2, hit2, _⟩ := h.cDoneFields hc
        simp at hit2
      · intro hm; simp at hm
      · intro k hk; simp at hk
      · intro k hk; simp at hk
      · intro _; exact ⟨_, rfl, mfields_putItem c hp⟩
      · simp
      · intro it' hit' _
        obtain rfl : metaPutItem c = it' := by injection hit'
        exact metaPutItem_fileName c hp
  | mPutFail r cr tc =>
      refine ⟨h.createsEq, h.cUpdSome, h.cRRSome, h.cRUSome, h.cDoneFields,
        h.cNotFailed, ?_, ?_, ?_, ?_, ?_, h.fileNameNone⟩ <;> intros <;> simp_all
  | mRetryFound r cr tc k =>
      refine ⟨h.createsEq, h.cUpdSome, h.cRRSome, h.cRUSome, h.cDoneFields,
        h.cNotFailed, ?_, ?_, ?_, ?_, ?_, h.fileNameNone⟩ <;> intros <;> simp_all
  | mRetryNone cr tc k hk =>
      exact absurd (h.mRRSome k rfl) (by simp)
  | mRetryExhaust cr tc k hk =>
      exact absurd (h.mRRSome k rfl) (by simp)
  | mRetryWrite st cr tc k =>
      have hsome := h.mRUSome k rfl
      obtain ⟨it, hit⟩ := Option.isSome_iff_exists.mp hsome
      subst hit
      refine ⟨by simpa [dbUpdate] using h.createsEq, ?_, ?_, ?_, ?_, h.cNotFailed,
        ?_, ?_, ?_, ?_, ?_, ?_⟩
      · intro w hw
        exact ⟨by simp [dbUpdate], (h.cUpdSome w hw).2⟩
      · intro k' hk'; simp [dbUpdate]
      · intro k' w hk'
        exact ⟨by simp [dbUpdate], (h.cRUSome k' w hk').2⟩
      · intro hc
        obtain ⟨it2, hit2, hcf⟩ := h.cDoneFields hc
        obtain rfl : it = it2 := by injection hit2
        exact ⟨_, rfl, cfields_preserved_meta c hp it hcf⟩
      · intro hm; simp at hm
      · intro k' hk'; simp at hk'
      · intro k' hk'; simp at hk'
      · intro _; exact ⟨_, rfl, mfields_applyUpdate c hp it⟩
      · simp
      · intro it' hit' hc
        obtain rfl : applyUpdate it (metaUpdateData c) = it' := by
          simpa [dbUpdate] using hit'
        rw [metaUpdate_fileName c hp]
        exact h.fileNameNone it rfl hc

theorem inv_reachable {c : Ctx} (hp : PayloadDisjoint c) {s : Sys}
    (hs : Reachable c s) : EngineInv c s := by
  induction hs with
  | refl => exact inv_init c
  | tail _ hstep ih => exact inv_step hp hstep ih

/-! ## Claim C1 -/

/-- Claim C1: for all interleavings of `handle_regular_file` and
`handle_meta_json_file` for the same `document_id` (started on a document
with no record), once both handlers have finished exactly one
`DocumentRecord` exists — exactly one conditional create succeeded — and
it carries both paths' fields: `has_file = "yes"`, `has_metadata = "yes"`,
all content-derived fields and the whole metadata payload.  Scope: the
payload does not shadow engine-owned attribute names. -/
theorem at_most_one_create (c : Ctx) (hp : PayloadDisjoint c)
    (_hid : metaDocId c = contentDocId c) (s : Sys) (hs : Reachable c s)
    (hc : s.tc = .done) (hm : s.tm = .done) :
    ∃ it, s.store = some it ∧ s.creates = 1 ∧
      it "has_file" = some (.s "yes") ∧ it "has_metadata" = some (.s "yes") ∧
      CFields c it ∧ MFields c it := by
  have h := inv_reachable hp hs
  obtain ⟨it, hit, hcf⟩ := h.cDoneFields hc
  obtain ⟨it2, hit2, hmf⟩ := h.mDoneFields hm
  rw [hit] at hit2
  injection hit2 with he
  subst he
  have hcr : s.creates = 1 := by
    have := h.createsEq
    rw [hit] at this
    simpa using this
  exact ⟨it, hit, hcr, hcf.2.2.2.2.2.1, hmf.2.1, hcf, hmf⟩

/-- A concrete pair of creation events used by the witnesses: content
object `docs/abc.pdf` and metadata object `docs/abc.meta.json` carrying
`{"author": "x"}`. -/
def cA : Ctx :=
  ⟨"b", "docs/abc.pdf", "application/pdf", 7, "etag1", "t1",
   "docs/abc.meta.json", "t2", [("author", Val.s "x")]⟩

/-- Final state of the schedule: content runs to completion first
(read-none, conditional create succeeds), then the metadata handler
(read finds the record, updates it). -/
def sC1 : Sys :=
  ⟨dbUpdate (metaDocId cA) (some (contentPutItem cA)) (metaUpdateData cA), 1,
   .done, .done⟩

theorem sC1_reachable : Reachable cA sC1 := by
  have t1 : Step cA initSys ⟨none, 0, .put, .start⟩ := Step.cReadNone 0 .start
  have t2 : Step cA ⟨none, 0, .put, .start⟩
      ⟨some (contentPutItem cA), 1, .done, .start⟩ := Step.cPutOk 0 .start
  have t3 : Step cA ⟨some (contentPutItem cA), 1, .done, .start⟩
      ⟨some (contentPutItem cA), 1, .done, .upd⟩ :=
    Step.mReadFound (contentPutItem cA) 1 .done
  have t4 : Step cA ⟨some (contentPutItem cA), 1, .done, .upd⟩ sC1 :=
    Step.mUpdWrite (some (contentPutItem cA)) 1 .done
  exact .tail (.tail (.tail (.tail .refl t1) t2) t3) t4

theorem at_most_one_create_witness :
    PayloadDisjoint cA ∧ metaDocId cA = contentDocId cA ∧
    (∃ it, sC1.store = some it ∧ sC1.creates = 1 ∧
      it "has_file" = some (.s "yes") ∧ it "has_metadata" = some (.s "yes") ∧
      CFields cA it ∧ MFields cA it) :=
  ⟨by decide, by decide,
   at_most_one_create cA (by decide) (by decide) sC1 sC1_reachable rfl rfl⟩

/-! ## `retry_with_backoff` (`common.py`) and Claim C4

`common.retry_with_backoff(func, max_attempts, initial_delay)` loops
`for attempt in range(max_attempts)`, sleeping `delay` (which doubles)
after every failure except the last, and re-raises the last exception when
all attempts fail (or a generic exception when `max_attempts = 0`).
Delays are modelled in milliseconds; the outcome of the `attempt`-th call
of the impure `func` is supplied as `func attempt`.  The returned list
records the sleeps performed. -/
def retryGo {E A : Type} (func : Nat → Except E A) (attempt fuel delay : Nat)
    (sleeps : List Nat) : Except (Option E) A × List Nat :=
  match fuel with
  | 0 => (.error none, sleeps)
  | f + 1 =>
    match func attempt with
    | .ok a => (.ok a, sleeps)
    | .error e =>
      match f with
      | 0 => (.error (some e), sleeps)
      | _ + 1 => retryGo func (attempt + 1) f (delay * 2) (sleeps ++ [delay])

def retry_with_backoff {E A : Type} (func : Nat → Except E A)
    (max_attempts initial_delay : Nat) : Except (Option E) A × List Nat :=
  retryGo func 0 max_attempts initial_delay []

/-- The `retry_as_update` closure of `handle_regular_file`'s race branch:
each attempt re-reads the record (`reads attempt` is the store snapshot the
attempt's `get_existing_record` sees) and updates it; a vanished record
raises. -/
def retryAsUpdateContent (c : Ctx) (reads : Nat → Option Item) (attempt : Nat) :
    Except Unit (Option Item) :=
  match reads attempt with
  | some existing =>
      .ok (dbUpdate (contentDocId c) (some existing)
        (contentUpdateData c (isFalsy (existing "file_name"))))
  | none => .error ()

/-- Neither handler can exhaust its retries in an interleaving of the two
creation paths: a failed conditional create means the record exists, and it
never disappears. -/
def NoFail (s : Sys) : Prop :=
  (∀ k, s.tc = .retryRead k → s.store.isSome) ∧ s.tc ≠ .failed ∧
  (∀ k, s.tm = .retryRead k → s.store.isSome) ∧ s.tm ≠ .failed

theorem nofail_step {c : Ctx} {s s' : Sys} (hstep : Step c s s')
    (h : NoFail s) : NoFail s' := by
  obtain ⟨h1, h2, h3, h4⟩ := h
  cases hstep <;> refine ⟨?_, ?_, ?_, ?_⟩ <;> intros <;> simp_all [dbUpdate]

theorem nofail_reachable {c : Ctx} {s : Sys} (hs : Reachable c s) : NoFail s := by
  induction hs with
  | refl => exact ⟨by intro k hk; simp [initSys] at hk, by simp [initSys],
      by intro k hk; simp [initSys] at hk, by simp [initSys]⟩
  | tail _ hstep ih => exact nofail_step hstep ih

/-- Claim C4: when the conditional create loses the expected race, the
handler falls back to re-read-and-update under `retry_with_backoff`
(3 attempts, delay doubling from 500ms).  Since the record exists on
re-read, the first attempt already succeeds — no sleep, no exception —
and produces the merged record: all content fields written, every other
attribute of the re-read record preserved.  Only exhaustion of all three
attempts re-raises the last exception (after sleeping 500ms then 1000ms),
and no interleaving of the two creation paths ever reaches exhaustion. -/
theorem conditional_create_race_recovery (c : Ctx) (reads : Nat → Option Item)
    (r : Item) (hr : reads 0 = some r) :
    (retry_with_backoff (retryAsUpdateContent c reads) 3 500 =
      (.ok (dbUpdate (contentDocId c) (some r)
        (contentUpdateData c (isFalsy (r "file_name")))), [])) ∧
    (∀ it, dbUpdate (contentDocId c) (some r)
        (contentUpdateData c (isFalsy (r "file_name"))) = some it →
      it "s3key" = some (.s c.key) ∧ it "s3bucket" = some (.s c.bucket) ∧
      it "content_type" = some (.s c.content_type) ∧ it "size" = some (.n c.size) ∧
      it "etag" = some (.s c.etag) ∧ it "has_file" = some (.s "yes") ∧
      ∀ k, k ∉ contentKeys → it k = r k) ∧
    (∀ (E A : Type) (func : Nat → Except E A) (es : Nat → E),
      (∀ n, func n = .error (es n)) →
      retry_with_backoff func 3 500 = (.error (some (es 2)), [500, 1000])) ∧
    (∀ s, Reachable c s → s.tc ≠ .failed ∧ s.tm ≠ .failed) := by
  refine ⟨?_, ?_, ?_, ?_⟩
  · simp [retry_with_backoff, retryGo, retryAsUpdateContent, hr]
  · intro it hit
    obtain rfl : applyUpdate r (contentUpdateData c (isFalsy (r "file_name"))) = it := by
      simpa [dbUpdate] using hit
    refine ⟨?_, ?_, ?_, ?_, ?_, ?_, ?_⟩
    · cases hw : isFalsy (r "file_name") <;> rfl
    · cases hw : isFalsy (r "file_name") <;> rfl
    · cases hw : isFalsy (r "file_name") <;> rfl
    · cases hw : isFalsy (r "file_name") <;> rfl
    · cases hw : isFalsy (r "file_name") <;> rfl
    · cases hw : isFalsy (r "file_name") <;> rfl
    · intro k hk
      exact contentUpdate_skips c r _ k hk
  · intro E A func es hf
    simp [retry_with_backoff, retryGo, hf]
  · intro s hs
    have h := nofail_reachable hs
    exact ⟨h.2.1, h.2.2.2⟩

/-! ## Claim C2: commutativity of the two creation paths -/

/-- Read one attribute of the (optional) stored record. -/
def storeGet (st : Option Item) (k : String) : Option Val :=
  match st with
  | some it => it k
  | none => none

/-- The three fixed entries of `handle_meta_json_file`'s `update_data`,
before the payload is splatted over them. -/
def metaFixed (c : Ctx) : List (String × Val) :=
  [("meta_s3key", Val.s c.mkey), ("meta_json_timestamp", Val.s c.mnow),
   ("has_metadata", Val.s "yes")]

theorem metaUpdateData_eq (c : Ctx) : metaUpdateData c = metaFixed c ++ c.payload := rfl

theorem metaPutItem_eq (c : Ctx) :
    metaPutItem c = dictOf
      ((("document_id", Val.s (metaDocId c)) :: ("document_id", Val.s (metaDocId c)) ::
        metaFixed c) ++ c.payload) := rfl

theorem dictOf_append (a b : List (String × Val)) :
    dictOf (a ++ b) = applyUpdate (dictOf a) b := by
  rw [dictOf, applyUpdate_append]; rfl

theorem applyUpdate_mid_skip (it : Item) (p b : List (String × Val)) (k : String)
    (hk : k ∉ p.map Prod.fst) :
    applyUpdate (applyUpdate it p) b k = applyUpdate it b k := by
  rw [applyUpdate_get b (applyUpdate it p) k, applyUpdate_notMem _ _ _ hk,
    ← applyUpdate_get]

/-- The same pair of events but with a metadata payload that reuses the
content-derived attribute name `content_type`. -/
def cEvil : Ctx :=
  ⟨"b", "docs/abc.pdf", "application/pdf", 7, "etag1", "t1",
   "docs/abc.meta.json", "t2", [("content_type", Val.s "evil")]⟩

/-- Claim C2 counterexample: processing content-then-metadata and
metadata-then-content for the same `document_id` does NOT agree for every
metadata payload — with payload `{"content_type": "evil"}` the two orders
disagree at the non-timestamp field `content_type` ("evil" vs the object's
real content type), because `handle_meta_json_file` splats the payload over
the record at top level. -/
theorem commutativity_counterexample :
    metaDocId cEvil = contentDocId cEvil ∧
    "content_type" ∉ (["updateddatetime", "meta_json_timestamp"] : List String) ∧
    storeGet (handle_meta_json_file cEvil (handle_regular_file cEvil none)) "content_type" ≠
      storeGet (handle_regular_file cEvil (handle_meta_json_file cEvil none)) "content_type" := by
  decide

/-- Claim C2 (amended): for payloads that do not shadow engine-owned
attribute names, processing content-then-metadata yields a record
field-equal (ignoring the timestamp fields) to processing
metadata-then-content, for the same `document_id`. -/
theorem commutativity_amended (c : Ctx) (hp : PayloadDisjoint c)
    (hid : metaDocId c = contentDocId c) (k : String)
    (_hk : k ∉ (["updateddatetime", "meta_json_timestamp"] : List String)) :
    storeGet (handle_meta_json_file c (handle_regular_file c none)) k =
      storeGet (handle_regular_file c (handle_meta_json_file c none)) k := by
  have hfn : isFalsy (metaPutItem c "file_name") = true := by
    rw [metaPutItem_fileName c hp]; rfl
  show applyUpdate (contentPutItem c) (metaUpdateData c) k =
    applyUpdate (metaPutItem c) (contentUpdateData c (isFalsy (metaPutItem c "file_name"))) k
  rw [hfn]
  by_cases hpay : k ∈ c.payload.map Prod.fst
  · -- a payload key: both orders end with the payload's value
    have hns : k ∉ sysKeys := by
      rcases List.mem_map.mp hpay with ⟨kv, hkv, hfst⟩
      exact hfst ▸ hp kv hkv
    have hnc : k ∉ contentKeys := fun hc => hns (contentKeys_sub_sys k hc)
    rw [metaUpdateData_eq, applyUpdate_append, applyUpdate_mem _ _ _ hpay,
      contentUpdate_skips c _ true k hnc, metaPutItem_eq, dictOf_append,
      applyUpdate_mem _ _ _ hpay]
  · -- not a payload key: both orders are concrete dictionaries
    have hL : applyUpdate (contentPutItem c) (metaUpdateData c) k =
        dictOf ((("document_id", Val.s (contentDocId c)) :: contentCreateData c) ++
          metaFixed c) k := by
      rw [metaUpdateData_eq, applyUpdate_append, applyUpdate_notMem _ _ _ hpay,
        show contentPutItem c =
          dictOf (("document_id", Val.s (contentDocId c)) :: contentCreateData c) from rfl,
        ← dictOf_append]
    have hR : applyUpdate (metaPutItem c) (contentUpdateData c true) k =
        dictOf ((("document_id", Val.s (metaDocId c)) :: ("document_id", Val.s (metaDocId c)) ::
          metaFixed c) ++ contentUpdateData c true) k := by
      rw [metaPutItem_eq, dictOf_append, applyUpdate_mid_skip _ _ _ _ hpay, ← dictOf_append]
    rw [hL, hR]
    by_cases hsys : k ∈ sysKeys
    · have hsys' : k ∈ ["document_id", "s3key", "s3bucket", "content_type", "size", "etag",
          "updateddatetime", "has_file", "file_name", "meta_s3key",
          "meta_json_timestamp", "has_metadata"] := hsys
      fin_cases hsys' <;>
        first
          | rfl
          | (show some (Val.s (contentDocId c)) = some (Val.s (metaDocId c)); rw [hid])
    · have hn1 : k ∉ ((("document_id", Val.s (contentDocId c)) :: contentCreateData c) ++
          metaFixed c).map Prod.fst := by
        intro hm
        have hm2 : k ∈ (["document_id", "document_id", "s3key", "file_name", "s3bucket",
            "content_type", "size", "etag", "updateddatetime", "has_file", "meta_s3key",
            "meta_json_timestamp", "has_metadata"] : List String) := hm
        apply hsys
        fin_cases hm2 <;> decide
      have hn2 : k ∉ ((("document_id", Val.s (metaDocId c)) ::
          ("document_id", Val.s (metaDocId c)) :: metaFixed c) ++
          contentUpdateData c true).map Prod.fst := by
        intro hm
        have hm2 : k ∈ (["document_id", "document_id", "meta_s3key", "meta_json_timestamp",
            "has_metadata", "s3key", "s3bucket", "content_type", "size", "etag",
            "updateddatetime", "has_file", "file_name"] : List String) := hm
        apply hsys
        fin_cases hm2 <;> decide
      rw [dictOf, dictOf, applyUpdate_notMem _ _ _ hn1, applyUpdate_notMem _ _ _ hn2]

theorem commutativity_amended_witness :
    PayloadDisjoint cA ∧ metaDocId cA = contentDocId cA ∧
    "s3key" ∉ (["updateddatetime", "meta_json_timestamp"] : List String) ∧
    storeGet (handle_meta_json_file cA (handle_regular_file cA none)) "s3key" =
      storeGet (handle_regular_file cA (handle_meta_json_file cA none)) "s3key" :=
  ⟨by decide, by decide, by decide,
   commutativity_amended cA (by decide) (by decide) "s3key" (by decide)⟩

/-! ## Claim C9: the metadata path and content-derived fields -/

/-- The content-derived fields named by the frame claim. -/
def frameKeys : List String :=
  ["s3key", "content_type", "size", "etag", "has_file", "file_name"]

/-- The metadata events of `cA` but with a payload that reuses the
content-derived attribute name `s3key`. -/
def cEvil9 : Ctx :=
  ⟨"b", "docs/abc.pdf", "application/pdf", 7, "etag1", "t1",
   "docs/abc.meta.json", "t2", [("s3key", Val.s "evil")]⟩

/-- Claim C9 counterexample: a metadata event does NOT leave the
content-derived fields unchanged for every payload — applied to the record
the content path created, the payload `{"s3key": "evil"}` is splatted over
the record and overwrites `s3key`. -/
theorem metadata_frame_counterexample :
    contentPutItem cA "s3key" = some (Val.s "docs/abc.pdf") ∧
    storeGet (handle_meta_json_file cEvil9 (some (contentPutItem cA))) "s3key" =
      some (Val.s "evil") := by
  decide

/-- Claim C9 (amended): a metadata event applied to an existing record sets
`has_metadata` and merges the payload's keys while leaving the
content-derived fields (`s3key`, `content_type`, `size`, `etag`,
`has_file`, `file_name`) unchanged, provided the payload does not itself
use those reserved field names (nor `has_metadata`). -/
theorem metadata_frame_amended (c : Ctx) (r : Item)
    (hp : ∀ kv ∈ c.payload, kv.1 ∉ ("has_metadata" :: frameKeys)) :
    handle_meta_json_file c (some r) = some (applyUpdate r (metaUpdateData c)) ∧
    (∀ k ∈ frameKeys, applyUpdate r (metaUpdateData c) k = r k) ∧
    applyUpdate r (metaUpdateData c) "has_metadata" = some (Val.s "yes") ∧
    (∀ k ∈ c.payload.map Prod.fst,
      applyUpdate r (metaUpdateData c) k = dictOf c.payload k) := by
  refine ⟨rfl, ?_, ?_, ?_⟩
  · intro k hk
    have hkp : k ∉ c.payload.map Prod.fst := by
      intro hm
      rcases List.mem_map.mp hm with ⟨kv, hkv, hfst⟩
      exact hp kv hkv (hfst ▸ List.mem_cons_of_mem _ hk)
    have hkf : k ∉ (metaFixed c).map Prod.fst := by
      intro hm
      have hm2 : k ∈ (["meta_s3key", "meta_json_timestamp", "has_metadata"] :
          List String) := hm
      fin_cases hk <;> simp_all
    rw [metaUpdateData_eq, applyUpdate_append, applyUpdate_notMem _ _ _ hkp,
      applyUpdate_notMem _ _ _ hkf]
  · have hkp : "has_metadata" ∉ c.payload.map Prod.fst := by
      intro hm
      rcases List.mem_map.mp hm with ⟨kv, hkv, hfst⟩
      exact hp kv hkv (hfst ▸ List.mem_cons_self _ _)
    rw [metaUpdateData_eq, applyUpdate_append, applyUpdate_notMem _ _ _ hkp]
    rfl
  · intro k hk
    rw [metaUpdateData_eq, applyUpdate_append, applyUpdate_mem _ _ _ hk]

theorem metadata_frame_amended_witness :
    (∀ kv ∈ cA.payload, kv.1 ∉ ("has_metadata" :: frameKeys)) ∧
    (handle_meta_json_file cA (some (contentPutItem cA)) =
      some (applyUpdate (contentPutItem cA) (metaUpdateData cA)) ∧
    (∀ k ∈ frameKeys,
      applyUpdate (contentPutItem cA) (metaUpdateData cA) k = contentPutItem cA k) ∧
    applyUpdate (contentPutItem cA) (metaUpdateData cA) "has_metadata" =
      some (Val.s "yes") ∧
    (∀ k ∈ cA.payload.map Prod.fst,
      applyUpdate (contentPutItem cA) (metaUpdateData cA) k = dictOf cA.payload k)) :=
  ⟨by decide, metadata_frame_amended cA (contentPutItem cA) (by decide)⟩

/-! ## Claim C10: the restore-completed handler upserts -/

/-- `handle_restore_file(bucket, key, restore_expiry)` from
`restore_event_processor.py`: builds `update_data` (with `restore_expiry`
only when the event carried one) and calls
`create_or_update_record(..., is_update=True)` — an upsert. -/
def handle_restore_file (key : String) (restore_expiry : Option String)
    (now : String) (st : Option Item) : Option Item :=
  dbUpdate (extract_file_id key) st
    ([("s3key", Val.s key), ("restore_status", Val.s "restored"),
      ("updateddatetime", Val.s now)] ++
     (match restore_expiry with
      | some e => [("restore_expiry", Val.s e)]
      | none => []))

/-- Claim C10: invoking the restore-completed handler for a key with no
existing record does not fail: the upsert creates a brand-new record
holding exactly the primary key `document_id`, `s3key`, `restore_status`
and `updateddatetime` — no content or metadata fields. -/
theorem restore_upsert_creates (key now k : String)
    (hk : k ∉ (["document_id", "s3key", "restore_status", "updateddatetime"] :
      List String)) :
    (handle_restore_file key none now none).isSome ∧
    storeGet (handle_restore_file key none now none) "document_id" =
      some (Val.s (extract_file_id key)) ∧
    storeGet (handle_restore_file key none now none) "s3key" = some (Val.s key) ∧
    storeGet (handle_restore_file key none now none) "restore_status" =
      some (Val.s "restored") ∧
    storeGet (handle_restore_file key none now none) "updateddatetime" =
      some (Val.s now) ∧
    storeGet (handle_restore_file key none now none) k = none ∧
    (∀ e, (handle_restore_file key (some e) now none).isSome) := by
  simp only [List.mem_cons, List.not_mem_nil, or_false, not_or] at hk
  obtain ⟨h1, h2, h3, h4⟩ := hk
  refine ⟨rfl, rfl, rfl, rfl, rfl, ?_, fun e => rfl⟩
  show applyUpdate (dictOf [("document_id", Val.s (extract_file_id key))])
    ([("s3key", Val.s key), ("restore_status", Val.s "restored"),
      ("updateddatetime", Val.s now)] ++ []) k = none
  rw [applyUpdate_notMem]
  · rw [dictOf, applyUpdate_cons, applyUpdate_nil, setK_other _ _ _ _ h1]
    rfl
  · simp [h2, h3, h4]

theorem restore_upsert_creates_witness :
    ("has_file" ∉ (["document_id", "s3key", "restore_status", "updateddatetime"] :
      List String)) ∧
    ((handle_restore_file "docs/abc.pdf" none "t9" none).isSome ∧
    storeGet (handle_restore_file "docs/abc.pdf" none "t9" none) "document_id" =
      some (Val.s (extract_file_id "docs/abc.pdf")) ∧
    storeGet (handle_restore_file "docs/abc.pdf" none "t9" none) "s3key" =
      some (Val.s "docs/abc.pdf") ∧
    storeGet (handle_restore_file "docs/abc.pdf" none "t9" none) "restore_status" =
      some (Val.s "restored") ∧
    storeGet (handle_restore_file "docs/abc.pdf" none "t9" none) "updateddatetime" =
      some (Val.s "t9") ∧
    storeGet (handle_restore_file "docs/abc.pdf" none "t9" none) "has_file" = none ∧
    (∀ e, (handle_restore_file "docs/abc.pdf" (some e) "t9" none).isSome)) :=
  ⟨by decide, restore_upsert_creates "docs/abc.pdf" "t9" "has_file" (by decide)⟩

/-! ## Claim C3: the DLQ retry coordinator (`dlq_retry_processor.py`) -/

def MAX_RETRY_ATTEMPTS : Nat := 3

/-- The externally visible actions `process_dlq_message` performs, in
order: invoking the target lambda, `send_to_manual_check` (send to the
manual-check quarantine queue with the `RetryCount` attribute), re-sending
to the source queue with an incremented `RetryCount`, and deleting the
original message from its source queue. -/
inductive DlqEffect where
  | dispatch
  | sendManual (retry_count : Nat)
  | requeue (retry_count : Nat)
  | deleteSource
deriving DecidableEq, Repr

inductive DlqStatus where
  | movedToManualCheck (retry_count : Nat)
  | retried (retry_count : Nat)
  | retryFailed (retry_count : Nat)
deriving DecidableEq, Repr

/-- `process_dlq_message(message, ...)` for a message whose attributes
carry `retry_count` and whose re-dispatch outcome is `dispatch_ok`.
Returns the status dict and the queue operations performed. -/
def process_dlq_message (retry_count : Nat) (dispatch_ok : Bool) :
    DlqStatus × List DlqEffect :=
  if MAX_RETRY_ATTEMPTS ≤ retry_count then
    (.movedToManualCheck retry_count, [.sendManual retry_count, .deleteSource])
  else if dispatch_ok then
    (.retried (retry_count + 1), [.dispatch, .deleteSource])
  else if MAX_RETRY_ATTEMPTS ≤ retry_count + 1 then
    (.movedToManualCheck (retry_count + 1),
     [.dispatch, .sendManual (retry_count + 1), .deleteSource])
  else
    (.retryFailed (retry_count + 1),
     [.dispatch, .requeue (retry_count + 1), .deleteSource])

/-- Claim C3: a unit whose stored `retry_count` already reached
`MAX_RETRY_ATTEMPTS = 3` is quarantined and deleted without any dispatch
attempt; a unit whose dispatch fails with the incremented count reaching 3
(the 3rd failure) is quarantined and deleted; any other dispatch failure
re-enqueues the unit with `retry_count` incremented by exactly one and
deletes the original (replace, not append). -/
theorem retry_ceiling (rc : Nat) (ok : Bool) :
    (MAX_RETRY_ATTEMPTS ≤ rc →
      process_dlq_message rc ok =
        (.movedToManualCheck rc, [.sendManual rc, .deleteSource]) ∧
      DlqEffect.dispatch ∉ (process_dlq_message rc ok).2) ∧
    (rc < MAX_RETRY_ATTEMPTS → MAX_RETRY_ATTEMPTS ≤ rc + 1 → ok = false →
      process_dlq_message rc ok =
        (.movedToManualCheck (rc + 1),
         [.dispatch, .sendManual (rc + 1), .deleteSource])) ∧
    (rc + 1 < MAX_RETRY_ATTEMPTS → ok = false →
      process_dlq_message rc ok =
        (.retryFailed (rc + 1), [.dispatch, .requeue (rc + 1), .deleteSource])) := by
  refine ⟨?_, ?_, ?_⟩
  · intro h
    constructor
    · simp [process_dlq_message, h]
    · simp [process_dlq_message, h]
  · intro h1 h2 h3
    subst h3
    simp [process_dlq_message, Nat.not_le.mpr h1, h2]
  · intro h1 h2
    subst h2
    simp [process_dlq_message, Nat.not_le.mpr (by omega : rc < MAX_RETRY_ATTEMPTS),
      Nat.not_le.mpr h1]

theorem retry_ceiling_witness :
    (MAX_RETRY_ATTEMPTS ≤ 3 ∧
      process_dlq_message 3 true =
        (.movedToManualCheck 3, [.sendManual 3, .deleteSource]) ∧
      DlqEffect.dispatch ∉ (process_dlq_message 3 true).2) ∧
    process_dlq_message 2 false =
      (.movedToManualCheck 3, [.dispatch, .sendManual 3, .deleteSource]) ∧
    process_dlq_message 0 false =
      (.retryFailed 1, [.dispatch, .requeue 1, .deleteSource]) :=
  ⟨⟨by decide, ((retry_ceiling 3 true).1 (by decide)).1,
    ((retry_ceiling 3 true).1 (by decide)).2⟩,
   (retry_ceiling 2 false).2.1 (by decide) (by decide) rfl,
   (retry_ceiling 0 false).2.2 (by decide) rfl⟩

/-! ## Claim C5: non-race errors surface through the event processor -/

/-- A Python exception as the handlers distinguish them: a botocore
`ClientError` carrying `e.response["Error"]["Code"]`, or any other
exception with its message. -/
inductive PyErr where
  | clientError (code : String)
  | exc (msg : String)
deriving DecidableEq, Repr

/-- The only error `handle_regular_file` handles specially:
`ClientError` with code `ConditionalCheckFailedException` raised by the
conditional create. -/
def isCondFail : PyErr → Bool
  | .clientError code => code = "ConditionalCheckFailedException"
  | .exc _ => false

/-- `handle_regular_file` with failure injection: `s3err` is an error
raised by `s3.get_object`, `werr` an error raised by the first
`create_or_update_record` call.  In the update branch every store error is
re-raised; in the create branch only the conditional-check failure is
caught (retry-as-update against the unchanged sequential store), everything
else is re-raised by the handler's outer `except`. -/
def handle_regular_file_run (c : Ctx) (s3err werr : Option PyErr)
    (st : Option Item) : Except PyErr (Option Item) :=
  match s3err with
  | some e => .error e
  | none =>
    match st with
    | some existing =>
      match werr with
      | some e => .error e
      | none => .ok (dbUpdate (contentDocId c) st
          (contentUpdateData c (isFalsy (existing "file_name"))))
    | none =>
      match werr with
      | none => .ok (some (contentPutItem c))
      | some e =>
        if isCondFail e then
          match (retry_with_backoff (retryAsUpdateContent c (fun _ => st)) 3 500).1 with
          | .ok st2 => .ok st2
          | .error _ => .error (.exc "Record disappeared")
        else .error e

/-- `event_processor.lambda_handler`'s outcome: a normally returned
response keeps its 200 status; an exception escaping the file handlers is
caught at the top and turned into a failure response — statusCode 500 with
the error in the body — never silently dropped. -/
def lambda_handler_run (r : Except PyErr (Option Item)) : Nat × Option PyErr :=
  match r with
  | .ok _ => (200, none)
  | .error e => (500, some e)

/-- Claim C5: every error other than the expected conditional-create race —
whether raised while fetching the object or while writing the record, in
either branch — propagates out of `handle_regular_file` unchanged, and the
event processor's `lambda_handler` surfaces it to its caller as a failure
(statusCode 500 carrying the error), not as a success. -/
theorem non_race_errors_surface (c : Ctx) (st : Option Item) (e : PyErr)
    (he : isCondFail e = false) :
    handle_regular_file_run c (some e) none st = .error e ∧
    handle_regular_file_run c none (some e) st = .error e ∧
    lambda_handler_run (handle_regular_file_run c none (some e) st) = (500, some e) ∧
    ∀ r, lambda_handler_run (.ok r) = (200, none) := by
  refine ⟨rfl, ?_, ?_, fun r => rfl⟩
  · cases st <;> simp [handle_regular_file_run, he]
  · cases st <;> simp [handle_regular_file_run, lambda_handler_run, he]

theorem non_race_errors_surface_witness :
    isCondFail (.exc "boom") = false ∧
    (handle_regular_file_run cA (some (.exc "boom")) none none = .error (.exc "boom") ∧
    handle_regular_file_run cA none (some (.exc "boom")) none = .error (.exc "boom") ∧
    lambda_handler_run (handle_regular_file_run cA none (some (.exc "boom")) none) =
      (500, some (.exc "boom")) ∧
    ∀ r, lambda_handler_run (.ok r) = (200, none)) :=
  ⟨by decide, non_race_errors_surface cA none (.exc "boom") (by decide)⟩

theorem conditional_create_race_recovery_witness :
    ((fun _ => some (metaPutItem cA)) 0 = some (metaPutItem cA)) ∧
    ((retry_with_backoff (retryAsUpdateContent cA (fun _ => some (metaPutItem cA))) 3 500 =
      (.ok (dbUpdate (contentDocId cA) (some (metaPutItem cA))
        (contentUpdateData cA (isFalsy (metaPutItem cA "file_name")))), [])) ∧
    (∀ it, dbUpdate (contentDocId cA) (some (metaPutItem cA))
        (contentUpdateData cA (isFalsy (metaPutItem cA "file_name"))) = some it →
      it "s3key" = some (.s cA.key) ∧ it "s3bucket" = some (.s cA.bucket) ∧
      it "content_type" = some (.s cA.content_type) ∧ it "size" = some (.n cA.size) ∧
      it "etag" = some (.s cA.etag) ∧ it "has_file" = some (.s "yes") ∧
      ∀ k, k ∉ contentKeys → it k = metaPutItem cA k) ∧
    (∀ (E A : Type) (func : Nat → Except E A) (es : Nat → E),
      (∀ n, func n = .error (es n)) →
      retry_with_backoff func 3 500 = (.error (some (es 2)), [500, 1000])) ∧
    (∀ s, Reachable cA s → s.tc ≠ .failed ∧ s.tm ≠ .failed)) :=
  ⟨rfl, conditional_create_race_recovery cA (fun _ => some (metaPutItem cA))
    (metaPutItem cA) rfl⟩

/-! ## The lifecycle API handlers -/

/-- Python's `pat in s` substring test. -/
def strContains (s pat : String) : Bool :=
  s.data.tails.any (fun t => pat.data.isPrefixOf t)

/-- An API Gateway response as the lifecycle handlers build them:
status code, the body's `error` field (absent on success) and its
`message` field. -/
structure ApiResp where
  status : Nat
  label : Option String
  message : Option String
deriving DecidableEq, Repr

/-- `restore.lambda_handler`: the guard chain over a well-formed request.
`document_id` is the (decoded) path parameter, `days`/`tier` the parsed
body values (defaults 1 and "Standard"), `doc` the DynamoDB lookup result,
`s3RestoreErr` an error raised by `s3.restore_object` (`none` = restore
initiated).  The later `update_item` failure is caught and only logged, so
it does not appear. -/
def restore_lambda_handler (document_id : Option String) (days : Int)
    (tier : String) (doc : Option Item) (s3RestoreErr : Option PyErr) : ApiResp :=
  match document_id with
  | none => ⟨400, some "Bad Request", some "Document ID required"⟩
  | some _ =>
    if ¬(1 ≤ days ∧ days ≤ 365) then
      ⟨400, some "Invalid restore days", some "Must be between 1 and 365"⟩
    else if ¬(tier = "Standard" ∨ tier = "Expedited" ∨ tier = "Bulk") then
      ⟨400, some "Invalid restore tier", some "Must be Standard, Expedited, or Bulk"⟩
    else
      match doc with
      | none => ⟨404, some "Not Found", some "Document not found"⟩
      | some d =>
        if ¬(d "storage_class" = some (.s "GLACIER") ∨
             d "storage_class" = some (.s "DEEP_ARCHIVE")) then
          ⟨409, some "Document not archived", none⟩
        else if d "restore_status" = some (.s "in_progress") then
          ⟨409, some "Restore in progress", some "Restore already in progress"⟩
        else
          match s3RestoreErr with
          | some (.clientError code) =>
            if code = "RestoreAlreadyInProgress" then
              ⟨409, some "Restore already in progress",
               some "S3 restore already in progress"⟩
            else ⟨500, some "Restore failed", none⟩
          | some (.exc m) =>
            if strContains m "RestoreAlreadyInProgress" then
              ⟨409, some "Restore already in progress", some m⟩
            else ⟨500, some "Internal server error", none⟩
          | none => ⟨200, none, some "Document restore initiated successfully"⟩

/-- Claim C6: `restore.lambda_handler` returns 409 "Document not archived"
for a Standard-tier document, 409 "Restore in progress" for an archived
document whose record says `restore_status = "in_progress"`, and 400 when
`days` lies outside `[1, 365]` or `tier` is not one of Standard, Expedited,
Bulk. -/
theorem restore_guards (did : String) (days : Int) (tier : String) (d : Item)
    (e : Option PyErr) :
    ((1 ≤ days ∧ days ≤ 365) →
      (tier = "Standard" ∨ tier = "Expedited" ∨ tier = "Bulk") →
      d "storage_class" = some (.s "STANDARD") →
      restore_lambda_handler (some did) days tier (some d) e =
        ⟨409, some "Document not archived", none⟩) ∧
    ((1 ≤ days ∧ days ≤ 365) →
      (tier = "Standard" ∨ tier = "Expedited" ∨ tier = "Bulk") →
      (d "storage_class" = some (.s "GLACIER") ∨
       d "storage_class" = some (.s "DEEP_ARCHIVE")) →
      d "restore_status" = some (.s "in_progress") →
      restore_lambda_handler (some did) days tier (some d) e =
        ⟨409, some "Restore in progress", some "Restore already in progress"⟩) ∧
    (∀ doc : Option Item,
      (¬(1 ≤ days ∧ days ≤ 365) ∨
       ¬(tier = "Standard" ∨ tier = "Expedited" ∨ tier = "Bulk")) →
      (restore_lambda_handler (some did) days tier doc e).status = 400) := by
  refine ⟨?_, ?_, ?_⟩
  · intro hdays htier hsc
    simp [restore_lambda_handler, hdays, htier, hsc]
  · intro hdays htier hsc hrs
    simp only [restore_lambda_handler]
    rw [if_neg (not_not_intro hdays), if_neg (not_not_intro htier),
      if_neg (not_not_intro hsc), if_pos hrs]
  · intro doc h
    rcases h with h | h
    · simp [restore_lambda_handler, h]
    · by_cases hdays : 1 ≤ days ∧ days ≤ 365
      · simp [restore_lambda_handler, hdays, h]
      · simp [restore_lambda_handler, hdays]

theorem restore_guards_witness :
    ((1 ≤ (1 : Int) ∧ (1 : Int) ≤ 365) ∧
     dictOf [("storage_class", Val.s "STANDARD")] "storage_class" =
       some (Val.s "STANDARD") ∧
     restore_lambda_handler (some "abc") 1 "Standard"
       (some (dictOf [("storage_class", Val.s "STANDARD")])) none =
       ⟨409, some "Document not archived", none⟩) ∧
    restore_lambda_handler (some "abc") 1 "Standard"
      (some (dictOf [("storage_class", Val.s "GLACIER"),
        ("restore_status", Val.s "in_progress")])) none =
      ⟨409, some "Restore in progress", some "Restore already in progress"⟩ ∧
    (restore_lambda_handler (some "abc") 0 "Standard" none none).status = 400 ∧
    (restore_lambda_handler (some "abc") 366 "Standard" none none).status = 400 ∧
    (restore_lambda_handler (some "abc") 1 "Fast" none none).status = 400 :=
  ⟨⟨by decide, by decide,
    (restore_guards "abc" 1 "Standard" (dictOf [("storage_class", Val.s "STANDARD")])
      none).1 (by decide) (Or.inl rfl) (by decide)⟩,
   (restore_guards "abc" 1 "Standard"
     (dictOf [("storage_class", Val.s "GLACIER"),
       ("restore_status", Val.s "in_progress")]) none).2.1
     (by decide) (Or.inl rfl) (Or.inl (by decide)) (by decide),
   (restore_guards "abc" 0 "Standard" emptyItem none).2.2 none
     (Or.inl (by decide)),
   (restore_guards "abc" 366 "Standard" emptyItem none).2.2 none
     (Or.inl (by decide)),
   (restore_guards "abc" 1 "Fast" emptyItem none).2.2 none
     (Or.inr (by decide))⟩

/-! ## Claim C7: archive's partial-success behaviour -/

/-- The cold-storage actions `archive.lambda_handler` performs. -/
inductive ArchiveEffect where
  | s3Copy
  | recordUpdate
deriving DecidableEq, Repr

/-- `archive.lambda_handler`: after the guards, the S3 copy to GLACIER is
attempted (`copyErr` its outcome); on copy success the DynamoDB
`update_item` is attempted once (`updateErr` its outcome) inside a
`try/except` whose handler only logs ("Non-fatal error as S3 is already
updated"), and the 200 response is returned regardless. -/
def archive_lambda_handler (document_id : Option String) (doc : Option Item)
    (copyErr _updateErr : Option PyErr) : ApiResp × List ArchiveEffect :=
  match document_id with
  | none => (⟨400, some "Bad Request", some "Document ID is required"⟩, [])
  | some _ =>
    match doc with
    | none => (⟨404, some "Document not found", none⟩, [])
    | some d =>
      if d "storage_class" = some (.s "GLACIER") ∨
         d "storage_class" = some (.s "DEEP_ARCHIVE") then
        (⟨409, some "Document already archived", none⟩, [])
      else
        match copyErr with
        | some _ =>
          (⟨500, some "Archive failed",
            some "Failed to move document to archive storage"⟩, [.s3Copy])
        | none =>
          (⟨200, none, some "Document archived successfully"⟩,
           [.s3Copy, .recordUpdate])

/-- Claim C7: when the GLACIER copy succeeds but the record update fails,
the handler still returns 200 "Document archived successfully"; the update
failure changes nothing about the response, and the update was attempted
exactly once — it is not retried. -/
theorem archive_partial_success (did : String) (d : Item) (e : PyErr)
    (hsc : ¬(d "storage_class" = some (.s "GLACIER") ∨
      d "storage_class" = some (.s "DEEP_ARCHIVE"))) :
    archive_lambda_handler (some did) (some d) none (some e) =
      (⟨200, none, some "Document archived successfully"⟩,
       [.s3Copy, .recordUpdate]) ∧
    archive_lambda_handler (some did) (some d) none (some e) =
      archive_lambda_handler (some did) (some d) none none ∧
    (archive_lambda_handler (some did) (some d) none (some e)).2.count
      ArchiveEffect.recordUpdate = 1 := by
  refine ⟨?_, ?_, ?_⟩ <;> simp [archive_lambda_handler, hsc]

theorem archive_partial_success_witness :
    (¬(dictOf [("storage_class", Val.s "STANDARD")] "storage_class" =
        some (Val.s "GLACIER") ∨
      dictOf [("storage_class", Val.s "STANDARD")] "storage_class" =
        some (Val.s "DEEP_ARCHIVE"))) ∧
    (archive_lambda_handler (some "abc")
      (some (dictOf [("storage_class", Val.s "STANDARD")])) none
      (some (.exc "dynamo down")) =
      (⟨200, none, some "Document archived successfully"⟩,
       [.s3Copy, .recordUpdate]) ∧
    archive_lambda_handler (some "abc")
      (some (dictOf [("storage_class", Val.s "STANDARD")])) none
      (some (.exc "dynamo down")) =
      archive_lambda_handler (some "abc")
        (some (dictOf [("storage_class", Val.s "STANDARD")])) none none ∧
    (archive_lambda_handler (some "abc")
      (some (dictOf [("storage_class", Val.s "STANDARD")])) none
      (some (.exc "dynamo down"))).2.count ArchiveEffect.recordUpdate = 1) :=
  ⟨by decide, archive_partial_success "abc"
    (dictOf [("storage_class", Val.s "STANDARD")]) (.exc "dynamo down") (by decide)⟩

/-! ## Claim C8: the read path re-derives tier and restore state -/

/-- The possible restore states of an S3 object, and the `Restore` response
header S3 reports for each. -/
inductive RestoreState where
  | notRequested
  | ongoing
  | completed (expiry : String)

def restoreHeader : RestoreState → Option String
  | .notRequested => none
  | .ongoing => some "ongoing-request=\"true\""
  | .completed e => some ("ongoing-request=\"false\", expiry-date=\"" ++ e ++ "\"")

/-- The parts of `retrieve.lambda_handler`'s response the read-path claim
is about. -/
structure RetrieveResp where
  status : Nat
  message : Option String
  storage_class : Option String
  restore_status : Option String
  presigned_url : Option String
deriving DecidableEq, Repr

/-- `retrieve.lambda_handler` for a single document: `doc` is the DynamoDB
lookup, `head` the `s3.head_object` result — `none` for `NoSuchKey`,
otherwise the optional `StorageClass` (absent means STANDARD) and the
optional `Restore` header.  Cold storage classes refuse access unless the
`Restore` header is present and not `ongoing-request="true"`; only then is
a presigned download URL generated. -/
def retrieve_document (document_id : String) (doc : Option Item)
    (head : Option (Option String × Option String)) : RetrieveResp :=
  match doc with
  | none => ⟨404, some "Document not found", none, none, none⟩
  | some d =>
    let s3key := match d "s3key" with
      | some (.s v) => v
      | some (.n v) => toString v
      | none => document_id
    match head with
    | none => ⟨404, some "File not found in storage", none, none, none⟩
    | some (scOpt, restoreOpt) =>
      let storage_class := scOpt.getD "STANDARD"
      if storage_class = "GLACIER" ∨ storage_class = "DEEP_ARCHIVE" then
        match restoreOpt with
        | none =>
          ⟨403, some "Please call restore api to restore the file first.",
           some storage_class, none, none⟩
        | some rinfo =>
          if strContains rinfo "ongoing-request=\"true\"" then
            ⟨202, some "Restore is in progress. Please try again later.",
             none, some "in_progress", none⟩
          else
            ⟨200, none, some storage_class, none, some ("presigned-get:" ++ s3key)⟩
      else ⟨200, none, some storage_class, none, some ("presigned-get:" ++ s3key)⟩

/-- Claim C8: on the read path the tier and restore state come from the
live object store (`head_object`), whatever the record says: for a cold
storage class, no restore header refuses access with 403 (NotRestored) and
no URL; `ongoing-request="true"` refuses with 202 (RestoreInProgress) and
no URL; and a download URL is granted exactly when the header shows the
restore completed (`ongoing-request="false"`). -/
theorem read_path_guards (did : String) (d : Item) (sc : String)
    (hcold : sc = "GLACIER" ∨ sc = "DEEP_ARCHIVE") :
    retrieve_document did (some d) (some (some sc, restoreHeader .notRequested)) =
      ⟨403, some "Please call restore api to restore the file first.",
       some sc, none, none⟩ ∧
    retrieve_document did (some d) (some (some sc, restoreHeader .ongoing)) =
      ⟨202, some "Restore is in progress. Please try again later.",
       none, some "in_progress", none⟩ ∧
    (∀ e, strContains ("ongoing-request=\"false\", expiry-date=\"" ++ e ++ "\"")
        "ongoing-request=\"true\"" = false →
      (retrieve_document did (some d)
        (some (some sc, restoreHeader (.completed e)))).status = 200 ∧
      (retrieve_document did (some d)
        (some (some sc, restoreHeader (.completed e)))).presigned_url ≠ none) := by
  have hsc : ((some sc : Option String).getD "STANDARD" = "GLACIER" ∨
      (some sc : Option String).getD "STANDARD" = "DEEP_ARCHIVE") := by
    simpa using hcold
  refine ⟨?_, ?_, ?_⟩
  · simp only [retrieve_document, restoreHeader]
    rw [if_pos hsc]
    rfl
  · simp only [retrieve_document, restoreHeader]
    rw [if_pos hsc, if_pos (by decide)]
  · intro e he
    simp only [retrieve_document, restoreHeader]
    rw [if_pos hsc, if_neg (by simp [he])]
    exact ⟨rfl, by simp⟩

theorem read_path_guards_witness :
    ("GLACIER" = "GLACIER" ∨ "GLACIER" = "DEEP_ARCHIVE") ∧
    (retrieve_document "abc" (some (contentPutItem cA))
      (some (some "GLACIER", restoreHeader .notRequested)) =
      ⟨403, some "Please call restore api to restore the file first.",
       some "GLACIER", none, none⟩ ∧
    retrieve_document "abc" (some (contentPutItem cA))
      (some (some "GLACIER", restoreHeader .ongoing)) =
      ⟨202, some "Restore is in progress. Please try again later.",
       none, some "in_progress", none⟩ ∧
    (∀ e, strContains ("ongoing-request=\"false\", expiry-date=\"" ++ e ++ "\"")
        "ongoing-request=\"true\"" = false →
      (retrieve_document "abc" (some (contentPutItem cA))
        (some (some "GLACIER", restoreHeader (.completed e)))).status = 200 ∧
      (retrieve_document "abc" (some (contentPutItem cA))
        (some (some "GLACIER", restoreHeader (.completed e)))).presigned_url ≠ none)) :=
  ⟨Or.inl rfl, read_path_guards "abc" (contentPutItem cA) "GLACIER" (Or.inl rfl)⟩
